import Mathlib

/-!
# Verification of `tensorflow/examples/label_image/label_image.py`

A shallow embedding of the logic of the script.  Real-valued scores produced by
the model are modelled as exact rationals (`ℚ`); Python exceptions are
modelled by `Except PyErr`; the file system seen by `gfile` is modelled by
a `FileSys` record of `dirExists` and `glob` functions.
-/

namespace LabelImage

/-- Python exceptions that the script can raise (uncaught). -/
inductive PyErr where
  | zeroDivision
  | indexError
  | valueError
deriving DecidableEq, Repr

instance {ε α : Type} [DecidableEq ε] [DecidableEq α] : DecidableEq (Except ε α) :=
  fun x y =>
    match x, y with
    | Except.ok a, Except.ok b =>
      if h : a = b then isTrue (by rw [h]) else
        isFalse (fun hc => h (Except.ok.inj hc))
    | Except.error a, Except.error b =>
      if h : a = b then isTrue (by rw [h]) else
        isFalse (fun hc => h (Except.error.inj hc))
    | Except.ok _, Except.error _ => isFalse (fun hc => Except.noConfusion hc)
    | Except.error _, Except.ok _ => isFalse (fun hc => Except.noConfusion hc)

/-! ## numpy argsort and the `[-k:][::-1]` top-K selection -/

/-- Ordering used to model `numpy.argsort` on a score vector `v`:
index `i` comes before `j` when its score is smaller, ties broken by
index (the numpy tie order is unspecified; we fix a stable one). -/
def argRel (v : List ℚ) (i j : ℕ) : Prop :=
  v.getD i 0 < v.getD j 0 ∨ (v.getD i 0 = v.getD j 0 ∧ i ≤ j)

instance (v : List ℚ) : DecidableRel (argRel v) := fun _ _ =>
  inferInstanceAs (Decidable (_ ∨ _))

instance (v : List ℚ) : IsTrans ℕ (argRel v) where
  trans a b c hab hbc := by
    rcases hab with h1 | ⟨h1, h2⟩ <;> rcases hbc with h3 | ⟨h3, h4⟩
    · exact Or.inl (h1.trans h3)
    · exact Or.inl (h3 ▸ h1)
    · exact Or.inl (h1 ▸ h3)
    · exact Or.inr ⟨h1.trans h3, h2.trans h4⟩

instance (v : List ℚ) : IsTotal ℕ (argRel v) where
  total a b := by
    rcases lt_trichotomy (v.getD a 0) (v.getD b 0) with h | h | h
    · exact Or.inl (Or.inl h)
    · rcases Nat.le_total a b with h' | h'
      · exact Or.inl (Or.inr ⟨h, h'⟩)
      · exact Or.inr (Or.inr ⟨h.symm, h'⟩)
    · exact Or.inr (Or.inl h)

/-- `v.argsort()`: the indices of `v` ordered by ascending score. -/
def argsort (v : List ℚ) : List ℕ :=
  List.insertionSort (argRel v) (List.range v.length)

/-- `v.argsort()[-k:][::-1]` for `k ≥ 1`: the indices of the `k` largest
entries of `v`, highest first. -/
def topKIdx (k : ℕ) (v : List ℚ) : List ℕ :=
  ((argsort v).drop (v.length - k)).reverse

/-! ## Top-K evaluation mode: the accuracy computation (lines 181–194)

`labels` is loaded as strings and each lookup does `int(labels[j])`; we
model the label file by the list of its parsed integer values. -/

/-- `for j in top_k: if int(labels[j]) == truth: prediction += 1` for one
image; `labels[j]` out of range raises `IndexError`. -/
def imageHits (labelVals : List ℤ) (truth : ℤ) (tk : List ℕ) : Except PyErr ℕ :=
  tk.foldlM (fun acc j =>
    if h : j < labelVals.length then
      Except.ok (acc + (if labelVals.get ⟨j, h⟩ = truth then 1 else 0))
    else Except.error PyErr.indexError) 0

/-- The `prediction` counter accumulated over `zip(final_results, ground_truth)`
for a given `k` (each row is squeezed and its top-k indices taken). -/
def predictionCount (k : ℕ) (rows : List (List ℚ)) (gt : List ℤ)
    (labelVals : List ℤ) : Except PyErr ℕ :=
  (rows.zip gt).foldlM (fun acc rt => do
    let hits ← imageHits labelVals rt.2 (topKIdx k rt.1)
    Except.ok (acc + hits)) 0

/-- `prediction / evaluated_images` for one `k` of top-K mode.
`evaluated_images` is incremented once per accumulated result row, so it
equals `rows.length`; Python division by zero raises. -/
def topKAccuracy (k : ℕ) (rows : List (List ℚ)) (gt : List ℤ)
    (labelVals : List ℤ) : Except PyErr ℚ := do
  let p ← predictionCount k rows gt labelVals
  if rows.length = 0 then Except.error PyErr.zeroDivision
  else Except.ok ((p : ℚ) / (rows.length : ℚ))

/-! ## File gathering (lines 151–152, 159–180 and 200–206)

`gfile` is modelled by a record of the two operations used. -/

/-- The file-system operations the script performs. -/
structure FileSys where
  dirExists : String → Bool
  glob : String → List String

/-- The extension list of lines 151 and 200: jpg, jpeg, JPG, JPEG. -/
def extensions : List String := ["jpg", "jpeg", "JPG", "JPEG"]

/-- The `tf.logging.error` message for a missing image directory (the
surrounding quote characters of the original message are omitted). -/
def dirNotFoundMsg (d : String) : String :=
  "Image directory " ++ d ++ " not found."

/-- Lines 163–167 (top-K mode, per folder) and 202–206 (voting mode):
log an error if the directory does not exist, then extend the file list
with a glob of os.path.join of the directory and *.ext for each extension.  Returns
`(logged messages, file_list)`.  `os.path.join` is modelled for a
non-empty directory name without a trailing slash. -/
def listImages (fs : FileSys) (dir : String) : List String × List String :=
  (if fs.dirExists dir then [] else [dirNotFoundMsg dir],
   extensions.foldl (fun acc ext => acc ++ fs.glob (dir ++ "/*." ++ ext)) [])

/-- Lines 159–180: iterate folders `0 .. 98` under `folder`; each image
found in folder `i` appends ground truth `i` and is counted once in
`evaluated_images` (so `evaluated_images` is the length of the second
component).  Returns `(ground_truth, all files in iteration order)`. -/
def collectTopK (fs : FileSys) (folder : String) : List ℤ × List String :=
  (List.range 99).foldl (fun (acc : List ℤ × List String) (i : ℕ) =>
    let files := (listImages fs (folder ++ "/" ++ toString i)).2
    (acc.1 ++ List.replicate files.length (Int.ofNat i), acc.2 ++ files)) ([], [])

/-- In voting mode `file_name` holds the folder; its file list (line 206). -/
def votingFileList (fs : FileSys) (folder : String) : List String :=
  (listImages fs folder).2

/-! ## Result accumulation and voting sums (lines 155–156, 177–179, 198–199, 215–220) -/

/-- `np.append(final_results, results, axis=0)` where `final_results` is
shaped `(-1, 99)`: the appended row must have exactly 99 entries,
otherwise numpy raises `ValueError`. -/
def npAppendRow (acc : List (List ℚ)) (row : List ℚ) : Except PyErr (List (List ℚ)) :=
  if row.length = 99 then Except.ok (acc ++ [row]) else Except.error PyErr.valueError

/-- The per-file accumulation loop: run inference on each file (modelled
by `infer`) and append the resulting row. -/
def accumulateResults (infer : String → List ℚ) (files : List String) :
    Except PyErr (List (List ℚ)) :=
  files.foldlM (fun acc f => npAppendRow acc (infer f)) []

/-- `np.sum(final_results, axis=0)` for an accumulator shaped `(-1, 99)`:
the 99-vector of column sums. -/
def npSumAxis0 (rows : List (List ℚ)) : List ℚ :=
  (List.range 99).map (fun j => (rows.map (fun r => r.getD j 0)).sum)

/-! ## Image preprocessing: `read_tensor_from_image_file` (lines 43–66) -/

/-- The four decoders the script can select. -/
inductive Decoder where
  | png
  | gif
  | bmp
  | jpeg
deriving DecidableEq, Repr

/-- The Python str.endswith test, on the character lists of the strings. -/
def pyEndsWith (s post : String) : Bool := post.data.isSuffixOf s.data

/-- Lines 48–58: the decoder branch, chosen purely by file-name suffix. -/
def selectDecoder (file_name : String) : Decoder :=
  if pyEndsWith file_name ".png" then Decoder.png
  else if pyEndsWith file_name ".gif" then Decoder.gif
  else if pyEndsWith file_name ".bmp" then Decoder.bmp
  else Decoder.jpeg

/-- A decoded image: height, width and a 3-channel pixel function
(values already cast to float, i.e. `ℚ` in the model).  Multi-frame GIFs
and BMPs with a channel count other than 3 are outside the model: the
decoders are invoked with `channels=3` (PNG/JPEG) and the GIF result is
squeezed to a single frame. -/
structure Image where
  height : ℕ
  width : ℕ
  px : ℕ → ℕ → ℕ → ℚ

/-- A 4-dimensional tensor: its shape and its entry function. -/
structure Tensor4 where
  dims : ℕ × ℕ × ℕ × ℕ
  entry : ℕ → ℕ → ℕ → ℕ → ℚ

/-- `tf.expand_dims(float_caster, 0)`: prepend a batch dimension of 1. -/
def tfExpandDims0 (img : Image) : Tensor4 :=
  ⟨(1, img.height, img.width, 3), fun _ y x c => img.px y x c⟩

/-- `tf.subtract(t, [m])`: broadcast elementwise subtraction. -/
def tfSubtract (t : Tensor4) (m : ℚ) : Tensor4 :=
  ⟨t.dims, fun b y x c => t.entry b y x c - m⟩

/-- `tf.divide(t, [s])`: broadcast elementwise division. -/
def tfDivide (t : Tensor4) (s : ℚ) : Tensor4 :=
  ⟨t.dims, fun b y x c => t.entry b y x c / s⟩

/-- Lines 43–66.  `decode` gives the image the selected decoder produces
from the bytes of the file; `resizeBilinear` is the library function
`tf.image.resize_bilinear`, kept opaque (theorems assume only its shape
behaviour). -/
def read_tensor_from_image_file (resizeBilinear : Tensor4 → ℕ → ℕ → Tensor4)
    (decode : Decoder → Image) (file_name : String)
    (input_height input_width : ℕ) (input_mean input_std : ℚ) : Tensor4 :=
  let image_reader := decode (selectDecoder file_name)
  let dims_expander := tfExpandDims0 image_reader
  let resized := resizeBilinear dims_expander input_height input_width
  tfDivide (tfSubtract resized input_mean) input_std

/-! ## Label loading: `load_labels` (lines 69–74) -/

/-- The whitespace characters stripped by the Python str.rstrip method
(the ASCII ones; the label files are ASCII). -/
def pyIsSpace (c : Char) : Bool :=
  c = ' ' || c = '\t' || c = '\n' || c = '\r' || c = '\x0b' || c = '\x0c'

/-- Python rstrip: drop trailing whitespace. -/
def pyRstrip (s : String) : String :=
  String.mk ((s.data.reverse.dropWhile pyIsSpace).reverse)

/-- Python readlines on the character list of the contents:
split after every newline, keeping the newline; a final fragment with no
newline is kept; empty contents give no lines.  `acc` holds the current
characters of the current line in reverse. -/
def readlinesAux (acc : List Char) : List Char → List (List Char)
  | [] => if acc = [] then [] else [acc.reverse]
  | c :: rest =>
    if c = '\n' then (acc.reverse ++ ['\n']) :: readlinesAux [] rest
    else readlinesAux (c :: acc) rest

/-- The readlines call of line 71, on the contents of the file. -/
def readlines (contents : String) : List String :=
  (readlinesAux [] contents.data).map String.mk

/-- Lines 69–74: one entry per line, each `rstrip`ped, in file order. -/
def load_labels (contents : String) : List String :=
  (readlines contents).map pyRstrip

/-! ## CLI flag overrides (lines 90–133) -/

/-- Python truthiness of an optional parsed `int` argument:
`None` and `0` are falsy. -/
def intFlagTruthy (arg : Option ℤ) : Bool :=
  match arg with
  | none => false
  | some v => decide (v ≠ 0)

/-- `if args.x: x = args.x` for the `type=int` flags
(`--input_height`, `--input_width`, `--input_mean`, `--input_std`). -/
def applyIntOverride (default : ℤ) (arg : Option ℤ) : ℤ :=
  if intFlagTruthy arg then arg.getD default else default

/-- `argparse` with `type=bool` applies Python `bool()` to the argument
string: truthy iff non-empty. -/
def pyBoolOfString (s : String) : Bool := decide (s ≠ "")

/-- `if args.vote:` / `if args.top_k_graph:`: the flag is active iff it
was passed and its string is non-empty. -/
def boolFlagActive (arg : Option String) : Bool :=
  match arg with
  | none => false
  | some s => pyBoolOfString s

/-- The `(label, score)` pairs printed by single-image mode
(lines 237–240): `for i in top_k: print(labels[i], results[i])`. -/
def printedPairs (labels : List String) (v : List ℚ) : List (String × ℚ) :=
  (topKIdx 10 v).map (fun i => (labels.getD i "", v.getD i 0))

/-! ## Concrete instances used to evaluate the theorems -/

/-- A label list in which every class index `0 .. 98` occurs as a value,
but `0` occurs twice (at positions 0 and 1). -/
def dupLabels : List ℤ := 0 :: (List.range 99).map Int.ofNat

/-- The label list whose `j`-th value is `j`. -/
def idLabels : List ℤ := (List.range 99).map Int.ofNat

/-- A file system with no directories and no files. -/
def emptyFS : FileSys := ⟨fun _ => false, fun _ => []⟩

/-- A file system whose directory `m` holds the single image `m/a.png`
(so globbing `m/*.png` finds it and every other glob finds nothing). -/
def pngOnlyFS : FileSys :=
  ⟨fun _ => true, fun pat => if pat = "m/*.png" then ["m/a.png"] else []⟩

/-- A shape-respecting resize function used to instantiate the
preprocessing theorem. -/
def idResize : Tensor4 → ℕ → ℕ → Tensor4 :=
  fun t h w => ⟨(t.dims.1, h, w, t.dims.2.2.2), t.entry⟩

/-- A decode function producing a constant 1×1 image. -/
def constDecode : Decoder → Image := fun _ => ⟨1, 1, fun _ _ _ => 0⟩

/-! ## Helper lemmas -/

lemma argRel_le {v : List ℚ} {i j : ℕ} (h : argRel v i j) :
    v.getD i 0 ≤ v.getD j 0 := by
  rcases h with h | ⟨h, _⟩
  · exact le_of_lt h
  · exact le_of_eq h

lemma argsort_perm (v : List ℚ) :
    List.Perm (argsort v) (List.range v.length) :=
  List.perm_insertionSort _ _

lemma argsort_sorted (v : List ℚ) : (argsort v).Pairwise (argRel v) :=
  List.sorted_insertionSort _ _

lemma argsort_length (v : List ℚ) : (argsort v).length = v.length := by
  rw [(argsort_perm v).length_eq, List.length_range]

lemma topKIdx_length {k : ℕ} {v : List ℚ} (hk : k ≤ v.length) :
    (topKIdx k v).length = k := by
  unfold topKIdx
  rw [List.length_reverse, List.length_drop, argsort_length]
  omega

lemma mem_topKIdx {k : ℕ} {v : List ℚ} {i : ℕ} :
    i ∈ topKIdx k v ↔ i ∈ (argsort v).drop (v.length - k) := by
  unfold topKIdx
  exact List.mem_reverse

lemma topKIdx_pairwise (k : ℕ) (v : List ℚ) :
    (topKIdx k v).Pairwise (fun i j => argRel v j i) := by
  unfold topKIdx
  rw [List.pairwise_reverse]
  exact (argsort_sorted v).sublist (List.drop_sublist _ _)

/-- Every index selected by `topKIdx` dominates every index not selected. -/
lemma topKIdx_top {k : ℕ} {v : List ℚ} {i j : ℕ} (hi : i ∈ topKIdx k v)
    (hj : j < v.length) (hj2 : j ∉ topKIdx k v) : argRel v j i := by
  rw [mem_topKIdx] at hi hj2
  have hsplit : argsort v = (argsort v).take (v.length - k) ++ (argsort v).drop (v.length - k) :=
    (List.take_append_drop _ _).symm
  have hjs : j ∈ argsort v := by
    rw [(argsort_perm v).mem_iff, List.mem_range]
    exact hj
  have hjtake : j ∈ (argsort v).take (v.length - k) := by
    rw [hsplit] at hjs
    rcases List.mem_append.mp hjs with h | h
    · exact h
    · exact absurd h hj2
  have hpw := argsort_sorted v
  rw [hsplit] at hpw
  exact (List.pairwise_append.mp hpw).2.2 j hjtake i hi

lemma topKIdx_mem_lt {k : ℕ} {v : List ℚ} {i : ℕ} (hi : i ∈ topKIdx k v) :
    i < v.length := by
  rw [mem_topKIdx] at hi
  have : i ∈ argsort v := List.mem_of_mem_drop hi
  rw [(argsort_perm v).mem_iff, List.mem_range] at this
  exact this

/-- With `k = v.length`, `topKIdx` enumerates all the indices of `v`. -/
lemma topKIdx_full_perm {v : List ℚ} {k : ℕ} (hk : k = v.length) :
    List.Perm (topKIdx k v) (List.range v.length) := by
  unfold topKIdx
  rw [hk, Nat.sub_self, List.drop_zero]
  exact (List.reverse_perm _).trans (argsort_perm v)

/-! ## Claims -/

/-- C2: in single-image mode, for every 99-element output score vector, the
ten `(label, score)` pairs printed are the ten highest-scoring classes, and
they are printed in non-increasing order of score. -/
theorem single_image_top10_sorted (v : List ℚ) (hv : v.length = 99) :
    (topKIdx 10 v).length = 10 ∧
    (topKIdx 10 v).Pairwise (fun i j => v.getD j 0 ≤ v.getD i 0) ∧
    (∀ labels, (printedPairs labels v).Pairwise (fun p q => q.2 ≤ p.2)) ∧
    (∀ i ∈ topKIdx 10 v, ∀ j, j < 99 → j ∉ topKIdx 10 v →
      v.getD j 0 ≤ v.getD i 0) := by
  refine ⟨topKIdx_length (by omega), ?_, ?_, ?_⟩
  · exact (topKIdx_pairwise 10 v).imp (fun h => argRel_le h)
  · intro labels
    exact ((topKIdx_pairwise 10 v).imp (fun h => argRel_le h)).map _
      (fun a b hab => hab)
  · intro i hi j hj hj2
    exact argRel_le (topKIdx_top hi (by omega) hj2)

/-- C2 witness: the theorem applied at a concrete 99-element vector. -/
theorem single_image_top10_sorted_witness :
    (List.replicate 99 (0:ℚ)).length = 99 ∧
    ((topKIdx 10 (List.replicate 99 (0:ℚ))).length = 10 ∧
      (topKIdx 10 (List.replicate 99 (0:ℚ))).Pairwise
        (fun i j => (List.replicate 99 (0:ℚ)).getD j 0 ≤ (List.replicate 99 (0:ℚ)).getD i 0) ∧
      (∀ labels, (printedPairs labels (List.replicate 99 (0:ℚ))).Pairwise
        (fun p q => q.2 ≤ p.2)) ∧
      (∀ i ∈ topKIdx 10 (List.replicate 99 (0:ℚ)), ∀ j, j < 99 →
        j ∉ topKIdx 10 (List.replicate 99 (0:ℚ)) →
        (List.replicate 99 (0:ℚ)).getD j 0 ≤ (List.replicate 99 (0:ℚ)).getD i 0)) :=
  ⟨by simp, single_image_top10_sorted _ (by simp)⟩

lemma imageHits_go (L : List ℤ) (t : ℤ) :
    ∀ (tk : List ℕ) (acc : ℕ), (∀ j ∈ tk, j < L.length) →
      tk.foldlM (fun acc j =>
        if h : j < L.length then
          Except.ok (acc + (if L.get ⟨j, h⟩ = t then 1 else 0))
        else Except.error PyErr.indexError) acc
        = Except.ok (acc + tk.countP (fun j => decide (L.getD j 0 = t))) := by
  intro tk
  induction tk with
  | nil => intro acc _; rfl
  | cons j tk ih =>
    intro acc hmem
    have hj : j < L.length := hmem j (List.mem_cons_self j tk)
    have hget : L.get ⟨j, hj⟩ = L.getD j 0 := by
      rw [List.getD_eq_getElem _ _ hj]
      exact List.get_eq_getElem _ _
    rw [List.foldlM_cons, dif_pos hj]
    have hrest := ih (acc + (if L.get ⟨j, hj⟩ = t then 1 else 0))
      (fun x hx => hmem x (List.mem_cons_of_mem j hx))
    rw [show ((Except.ok (acc + (if L.get ⟨j, hj⟩ = t then 1 else 0)) :
        Except PyErr ℕ) >>= fun a => List.foldlM _ a tk)
        = List.foldlM _ (acc + (if L.get ⟨j, hj⟩ = t then 1 else 0)) tk from rfl]
    rw [hrest, List.countP_cons, hget]
    refine congrArg Except.ok ?_
    simp only [decide_eq_true_eq]
    by_cases hc : L.getD j 0 = t <;> simp only [hc, if_true, if_false] <;> omega

lemma imageHits_ok {L : List ℤ} {t : ℤ} {tk : List ℕ}
    (h : ∀ j ∈ tk, j < L.length) :
    imageHits L t tk = Except.ok (tk.countP (fun j => decide (L.getD j 0 = t))) := by
  unfold imageHits
  rw [imageHits_go L t tk 0 h]
  rw [Nat.zero_add]

lemma predictionCount_go (k : ℕ) (L : List ℤ) :
    ∀ (pairs : List (List ℚ × ℤ)) (acc : ℕ),
      (∀ x ∈ pairs, imageHits L x.2 (topKIdx k x.1) = Except.ok 1) →
      pairs.foldlM (fun acc rt => do
        let hits ← imageHits L rt.2 (topKIdx k rt.1)
        Except.ok (acc + hits)) acc = Except.ok (acc + pairs.length) := by
  intro pairs
  induction pairs with
  | nil => intro acc _; rfl
  | cons x pairs ih =>
    intro acc hmem
    have hx : imageHits L x.2 (topKIdx k x.1) = Except.ok 1 :=
      hmem x (List.mem_cons_self x pairs)
    rw [List.foldlM_cons]
    have hstep : (do
        let hits ← imageHits L x.2 (topKIdx k x.1)
        Except.ok (acc + hits) : Except PyErr ℕ) = Except.ok (acc + 1) := by
      rw [hx]
      rfl
    rw [show ((do
        let hits ← imageHits L x.2 (topKIdx k x.1)
        Except.ok (acc + hits) : Except PyErr ℕ) >>= fun a =>
          List.foldlM _ a pairs)
        = ((Except.ok (acc + 1) : Except PyErr ℕ) >>= fun a =>
          List.foldlM _ a pairs) from by rw [hstep]]
    rw [show ((Except.ok (acc + 1) : Except PyErr ℕ) >>= fun a =>
        List.foldlM _ a pairs) = List.foldlM _ (acc + 1) pairs from rfl]
    rw [ih (acc + 1) (fun y hy => hmem y (List.mem_cons_of_mem x hy))]
    rw [List.length_cons]
    congr 1
    omega

/-- C1 counterexample: the claim as stated is false.  Every class index
`0 .. 98` appears among the values of `dupLabels` and one image is
evaluated, yet the K = 99 accuracy fraction is not 1 (the value `0`
occurs twice among the first 99 labels, so the image with ground truth 0
is counted twice and the fraction is 2). -/
theorem topk99_accuracy_counterexample :
    ([List.replicate 99 (0:ℚ)] ≠ ([] : List (List ℚ))) ∧
    (∀ c : ℕ, c < 99 → ((c : ℤ) ∈ dupLabels)) ∧
    topKAccuracy 99 [List.replicate 99 (0:ℚ)] [0] dupLabels ≠ Except.ok 1 := by
  refine ⟨by simp, by decide, ?_⟩
  have h : predictionCount 99 [List.replicate 99 (0:ℚ)] [0] dupLabels
      = Except.ok 2 := by decide
  unfold topKAccuracy
  rw [h]
  simp only [bind, Except.bind, List.length_cons, List.length_nil]
  intro hc
  have h2 := Except.ok.inj hc
  norm_num at h2

/-- C1 (amended): in top-K mode with K = 99, the accuracy fraction
`prediction / evaluated_images` equals 1 whenever some images were
evaluated, every result row has 99 scores, the label list has at least
99 entries, and each evaluated ground truth occurs exactly once among
the integer values of the first 99 labels (if a ground truth occurred
twice there the fraction would exceed 1, as the counterexample shows). -/
theorem topk99_accuracy_one (rows : List (List ℚ)) (gt : List ℤ)
    (labelVals : List ℤ) (hne : rows ≠ [])
    (hrow : ∀ r ∈ rows, r.length = 99) (hgt : gt.length = rows.length)
    (hlab : 99 ≤ labelVals.length)
    (huniq : ∀ t ∈ gt,
      (List.range 99).countP (fun j => decide (labelVals.getD j 0 = t)) = 1) :
    topKAccuracy 99 rows gt labelVals = Except.ok 1 := by
  have hpairs : ∀ x ∈ rows.zip gt,
      imageHits labelVals x.2 (topKIdx 99 x.1) = Except.ok 1 := by
    intro x hx
    obtain ⟨hx1, hx2⟩ := List.of_mem_zip hx
    have hxlen : x.1.length = 99 := hrow x.1 hx1
    have hmem : ∀ j ∈ topKIdx 99 x.1, j < labelVals.length := by
      intro j hj
      have hlt := topKIdx_mem_lt hj
      omega
    rw [imageHits_ok hmem]
    have hperm : List.Perm (topKIdx 99 x.1) (List.range x.1.length) :=
      topKIdx_full_perm hxlen.symm
    rw [hperm.countP_eq, hxlen, huniq x.2 hx2]
  have hpred : predictionCount 99 rows gt labelVals
      = Except.ok rows.length := by
    unfold predictionCount
    rw [predictionCount_go 99 labelVals (rows.zip gt) 0 hpairs]
    rw [List.length_zip, hgt, Nat.zero_add, Nat.min_self]
  have hlen : rows.length ≠ 0 := fun h => hne (List.length_eq_zero.mp h)
  unfold topKAccuracy
  rw [hpred]
  show (if rows.length = 0 then (Except.error PyErr.zeroDivision : Except PyErr ℚ)
    else Except.ok ((rows.length : ℚ) / (rows.length : ℚ))) = Except.ok 1
  rw [if_neg hlen]
  exact congrArg Except.ok (div_self (Nat.cast_ne_zero.mpr hlen))

/-- C1 witness: the amended theorem applied to one all-zero result row
with ground truth 0 and the identity label list. -/
theorem topk99_accuracy_one_witness :
    (([List.replicate 99 (0:ℚ)] : List (List ℚ)) ≠ [] ∧
      (∀ r ∈ [List.replicate 99 (0:ℚ)], r.length = 99) ∧
      ([(0:ℤ)] : List ℤ).length = [List.replicate 99 (0:ℚ)].length ∧
      99 ≤ idLabels.length ∧
      (∀ t ∈ ([(0:ℤ)] : List ℤ),
        (List.range 99).countP (fun j => decide (idLabels.getD j 0 = t)) = 1)) ∧
    topKAccuracy 99 [List.replicate 99 (0:ℚ)] [0] idLabels = Except.ok 1 :=
  ⟨⟨by simp, by decide, by decide, by decide, by decide⟩,
    topk99_accuracy_one _ _ _ (by simp) (by decide) (by decide) (by decide)
      (by decide)⟩

lemma accumulate_go (infer : String → List ℚ) :
    ∀ (files : List String) (acc : List (List ℚ)),
      (∀ f ∈ files, (infer f).length = 99) →
      files.foldlM (fun acc f => npAppendRow acc (infer f)) acc
        = Except.ok (acc ++ files.map infer) := by
  intro files
  induction files with
  | nil =>
    intro acc _
    rw [List.map_nil, List.append_nil]
    rfl
  | cons f files ih =>
    intro acc h
    have hf : (infer f).length = 99 := h f (List.mem_cons_self f files)
    rw [List.foldlM_cons]
    rw [show npAppendRow acc (infer f) = Except.ok (acc ++ [infer f]) from by
      unfold npAppendRow; rw [if_pos hf]]
    rw [show ((Except.ok (acc ++ [infer f]) : Except PyErr (List (List ℚ)))
        >>= fun a => List.foldlM _ a files)
        = List.foldlM _ (acc ++ [infer f]) files from rfl]
    rw [ih (acc ++ [infer f]) (fun x hx => h x (List.mem_cons_of_mem f hx))]
    simp [List.append_assoc]

lemma mem_foldl_append {α β : Type} (g : α → List β) :
    ∀ (l : List α) (acc : List β) (x : β),
      x ∈ l.foldl (fun a e => a ++ g e) acc ↔ x ∈ acc ∨ ∃ e ∈ l, x ∈ g e := by
  intro l
  induction l with
  | nil => intro acc x; simp
  | cons e l ih =>
    intro acc x
    rw [List.foldl_cons, ih]
    simp [List.mem_append, or_assoc]

lemma foldl_append_nil {α β : Type} (g : α → List β) :
    ∀ (l : List α) (acc : List β), (∀ e ∈ l, g e = []) →
      l.foldl (fun a e => a ++ g e) acc = acc := by
  intro l
  induction l with
  | nil => intro acc _; rfl
  | cons e l ih =>
    intro acc h
    rw [List.foldl_cons, h e (List.mem_cons_self e l), List.append_nil]
    exact ih acc (fun x hx => h x (List.mem_cons_of_mem e hx))

/-- C4: in voting mode, the accumulated result matrix is the list of the
per-image output vectors in iteration order, the summed vector used for
ranking is the elementwise sum of those vectors, and the sum is invariant
under permuting the iteration order over the files. -/
theorem voting_sum_permutation_invariant (infer : String → List ℚ)
    (files files' : List String) (hlen : ∀ f, (infer f).length = 99)
    (hperm : List.Perm files' files) :
    accumulateResults infer files = Except.ok (files.map infer) ∧
    (∀ j, j < 99 → (npSumAxis0 (files.map infer)).getD j 0
      = (files.map (fun f => (infer f).getD j 0)).sum) ∧
    npSumAxis0 (files'.map infer) = npSumAxis0 (files.map infer) := by
  refine ⟨?_, ?_, ?_⟩
  · unfold accumulateResults
    rw [accumulate_go infer files [] (fun f _ => hlen f)]
    simp
  · intro j hj
    unfold npSumAxis0
    have hj' : j < ((List.range 99).map
        (fun j => ((files.map infer).map (fun r => r.getD j 0)).sum)).length := by
      simp [hj]
    rw [List.getD_eq_getElem _ _ hj']
    rw [List.getElem_map, List.getElem_range]
    rw [List.map_map]
    rfl
  · unfold npSumAxis0
    refine List.map_congr_left ?_
    intro j _
    rw [List.map_map, List.map_map]
    exact (hperm.map (fun f => (infer f).getD j 0)).sum_eq

/-- C4 witness: the theorem applied to a two-file folder and the swap of
its iteration order. -/
theorem voting_sum_permutation_invariant_witness :
    ((∀ f, ((fun (_ : String) => List.replicate 99 (1:ℚ)) f).length = 99) ∧
      List.Perm ["b", "a"] ["a", "b"]) ∧
    (accumulateResults (fun _ => List.replicate 99 (1:ℚ)) ["a", "b"]
        = Except.ok (["a", "b"].map (fun _ => List.replicate 99 (1:ℚ))) ∧
      (∀ j, j < 99 →
        (npSumAxis0 (["a", "b"].map (fun _ => List.replicate 99 (1:ℚ)))).getD j 0
          = (["a", "b"].map
              (fun f => ((fun (_ : String) => List.replicate 99 (1:ℚ)) f).getD j 0)).sum) ∧
      npSumAxis0 (["b", "a"].map (fun _ => List.replicate 99 (1:ℚ)))
        = npSumAxis0 (["a", "b"].map (fun _ => List.replicate 99 (1:ℚ)))) :=
  ⟨⟨fun _ => by simp, by decide⟩,
    voting_sum_permutation_invariant _ _ _ (fun _ => by simp) (by decide)⟩

/-- C9: appending an inference result row to the `(-1, 99)`-shaped
accumulator raises `ValueError` whenever the row does not have exactly 99
entries, in both voting and top-K mode (both use this append), no matter
what the label file contains. -/
theorem append_requires_99 (acc : List (List ℚ)) (row : List ℚ)
    (h : row.length ≠ 99) :
    npAppendRow acc row = Except.error PyErr.valueError := by
  unfold npAppendRow
  rw [if_neg h]

/-- C9 witness: a 98-element row is rejected. -/
theorem append_requires_99_witness :
    (List.replicate 98 (0:ℚ)).length ≠ 99 ∧
    npAppendRow [] (List.replicate 98 (0:ℚ)) = Except.error PyErr.valueError :=
  ⟨by decide, append_requires_99 [] _ (by decide)⟩

/-- C5: when an expected image directory does not exist, the script logs
an error message and proceeds with an empty file list for that directory
(assuming, as for a real file system, that globbing under the missing
directory finds nothing); no exception is raised.  Both the per-folder
lookup of top-K mode and the folder lookup of voting mode are this
`listImages` step. -/
theorem missing_dir_logs_and_continues (fs : FileSys) (dir : String)
    (hex : fs.dirExists dir = false)
    (hglob : ∀ ext ∈ extensions, fs.glob (dir ++ "/*." ++ ext) = []) :
    listImages fs dir = ([dirNotFoundMsg dir], []) := by
  unfold listImages
  rw [hex, foldl_append_nil _ extensions [] hglob]
  simp

/-- C5 witness: the theorem applied to the empty file system. -/
theorem missing_dir_logs_and_continues_witness :
    (emptyFS.dirExists "d" = false ∧
      (∀ ext ∈ extensions, emptyFS.glob ("d" ++ "/*." ++ ext) = [])) ∧
    listImages emptyFS "d" = ([dirNotFoundMsg "d"], []) :=
  ⟨⟨rfl, fun _ _ => rfl⟩,
    missing_dir_logs_and_continues emptyFS "d" rfl (fun _ _ => rfl)⟩

lemma collectTopK_go (fs : FileSys) (folder : String) :
    ∀ (l : List ℕ) (acc : List ℤ × List String),
      (∀ i ∈ l, (listImages fs (folder ++ "/" ++ toString i)).2 = []) →
      l.foldl (fun (acc : List ℤ × List String) (i : ℕ) =>
        let files := (listImages fs (folder ++ "/" ++ toString i)).2
        (acc.1 ++ List.replicate files.length (Int.ofNat i), acc.2 ++ files)) acc
        = acc := by
  intro l
  induction l with
  | nil => intro acc _; rfl
  | cons i l ih =>
    intro acc h
    rw [List.foldl_cons]
    have hi := h i (List.mem_cons_self i l)
    simp only [hi, List.length_nil, List.replicate_zero, List.append_nil]
    exact ih acc (fun x hx => h x (List.mem_cons_of_mem i hx))

/-- C6: if no image file is found across the 99 numbered subfolders, then
`evaluated_images = 0` and the accuracy computation
`prediction / evaluated_images` raises an uncaught division-by-zero
error, for every k, every model and every label list. -/
theorem empty_folders_divide_by_zero (fs : FileSys) (folder : String)
    (hglob : ∀ i, i < 99 → ∀ ext ∈ extensions,
      fs.glob (folder ++ "/" ++ toString i ++ "/*." ++ ext) = []) :
    (collectTopK fs folder).2 = [] ∧
    ∀ (infer : String → List ℚ) (k : ℕ) (labelVals : List ℤ),
      topKAccuracy k (((collectTopK fs folder).2).map infer)
        ((collectTopK fs folder).1) labelVals
        = Except.error PyErr.zeroDivision := by
  have hfiles : ∀ i ∈ List.range 99,
      (listImages fs (folder ++ "/" ++ toString i)).2 = [] := by
    intro i hi
    have hi' : i < 99 := List.mem_range.mp hi
    exact foldl_append_nil _ extensions [] (hglob i hi')
  have hcollect : collectTopK fs folder = ([], []) := by
    unfold collectTopK
    exact collectTopK_go fs folder (List.range 99) ([], []) hfiles
  refine ⟨by rw [hcollect], ?_⟩
  intro infer k labelVals
  rw [hcollect]
  rfl

/-- C6 witness: the theorem applied to the empty file system. -/
theorem empty_folders_divide_by_zero_witness :
    (∀ i, i < 99 → ∀ ext ∈ extensions,
      emptyFS.glob ("d" ++ "/" ++ toString i ++ "/*." ++ ext) = []) ∧
    topKAccuracy 1 (((collectTopK emptyFS "d").2).map (fun _ => []))
      ((collectTopK emptyFS "d").1) []
      = Except.error PyErr.zeroDivision :=
  ⟨fun _ _ _ _ => rfl,
    (empty_folders_divide_by_zero emptyFS "d" (fun _ _ _ _ => rfl)).2
      (fun _ => []) 1 []⟩

/-- C7 counterexample: the claim as stated is false.  The folder `m`
holds the image `m/a.png` — a raster image in one of the consumed
formats (its name ends in `.png`) — yet the voting-mode file list does not
include it: only `*.jpg`, `*.jpeg`, `*.JPG`, `*.JPEG` are globbed. -/
theorem voting_skips_png_counterexample :
    pngOnlyFS.glob ("m" ++ "/*." ++ "png") = ["m/a.png"] ∧
    pyEndsWith "m/a.png" ".png" = true ∧
    "m/a.png" ∉ votingFileList pngOnlyFS "m" := by
  decide

/-- C7 (amended): the set of files iterated over in voting mode is
exactly the set of files matched by globbing the folder for the four
JPEG extension spellings `jpg`, `jpeg`, `JPG`, `JPEG`; files with the
other raster extensions (PNG, GIF, BMP) are not searched for. -/
theorem voting_file_list_is_jpeg_globs (fs : FileSys) (folder : String)
    (f : String) :
    f ∈ votingFileList fs folder ↔
      ∃ ext ∈ extensions, f ∈ fs.glob (folder ++ "/*." ++ ext) := by
  unfold votingFileList listImages
  rw [mem_foldl_append]
  simp

/-- C3: the preprocessor selects the decoder purely by file-name suffix
(`.png` → PNG, else `.gif` → GIF, else `.bmp` → BMP, else JPEG), and —
for any resize function with the shape behaviour of bilinear resizing —
returns a 4-dimensional tensor of shape `(1, height, width, 3)` whose
every entry is `(resized pixel - input_mean) / input_std`. -/
theorem read_tensor_shape_and_normalization
    (resizeBilinear : Tensor4 → ℕ → ℕ → Tensor4) (decode : Decoder → Image)
    (file_name : String) (input_height input_width : ℕ)
    (input_mean input_std : ℚ)
    (hres : ∀ t hh ww, (resizeBilinear t hh ww).dims
      = (t.dims.1, hh, ww, t.dims.2.2.2)) :
    (read_tensor_from_image_file resizeBilinear decode file_name
        input_height input_width input_mean input_std).dims
      = (1, input_height, input_width, 3) ∧
    (∀ b y x c,
      (read_tensor_from_image_file resizeBilinear decode file_name
          input_height input_width input_mean input_std).entry b y x c
        = ((resizeBilinear (tfExpandDims0 (decode (selectDecoder file_name)))
            input_height input_width).entry b y x c - input_mean) / input_std) ∧
    (pyEndsWith file_name ".png" = true → selectDecoder file_name = Decoder.png) ∧
    (pyEndsWith file_name ".png" = false → pyEndsWith file_name ".gif" = true →
      selectDecoder file_name = Decoder.gif) ∧
    (pyEndsWith file_name ".png" = false → pyEndsWith file_name ".gif" = false →
      pyEndsWith file_name ".bmp" = true → selectDecoder file_name = Decoder.bmp) ∧
    (pyEndsWith file_name ".png" = false → pyEndsWith file_name ".gif" = false →
      pyEndsWith file_name ".bmp" = false → selectDecoder file_name = Decoder.jpeg) := by
  refine ⟨?_, ?_, ?_, ?_, ?_, ?_⟩
  · show (resizeBilinear (tfExpandDims0 (decode (selectDecoder file_name)))
      input_height input_width).dims = (1, input_height, input_width, 3)
    rw [hres]
    rfl
  · intro b y x c
    rfl
  · intro h1
    unfold selectDecoder
    rw [h1]
    rfl
  · intro h1 h2
    unfold selectDecoder
    rw [h1, h2]
    rfl
  · intro h1 h2 h3
    unfold selectDecoder
    rw [h1, h2, h3]
    rfl
  · intro h1 h2 h3
    unfold selectDecoder
    rw [h1, h2, h3]
    rfl

/-- C3 witness: the theorem applied to a concrete resize function,
decode function and PNG file name. -/
theorem read_tensor_shape_and_normalization_witness :
    (∀ t hh ww, (idResize t hh ww).dims = (t.dims.1, hh, ww, t.dims.2.2.2)) ∧
    ((read_tensor_from_image_file idResize constDecode "a.png" 2 2 0 255).dims
        = (1, 2, 2, 3) ∧
      (∀ b y x c,
        (read_tensor_from_image_file idResize constDecode "a.png" 2 2 0 255).entry b y x c
          = ((idResize (tfExpandDims0 (constDecode (selectDecoder "a.png")))
              2 2).entry b y x c - 0) / 255) ∧
      (pyEndsWith "a.png" ".png" = true → selectDecoder "a.png" = Decoder.png) ∧
      (pyEndsWith "a.png" ".png" = false → pyEndsWith "a.png" ".gif" = true →
        selectDecoder "a.png" = Decoder.gif) ∧
      (pyEndsWith "a.png" ".png" = false → pyEndsWith "a.png" ".gif" = false →
        pyEndsWith "a.png" ".bmp" = true → selectDecoder "a.png" = Decoder.bmp) ∧
      (pyEndsWith "a.png" ".png" = false → pyEndsWith "a.png" ".gif" = false →
        pyEndsWith "a.png" ".bmp" = false → selectDecoder "a.png" = Decoder.jpeg)) :=
  ⟨fun _ _ _ => rfl,
    read_tensor_shape_and_normalization idResize constDecode "a.png" 2 2 0 255
      (fun _ _ _ => rfl)⟩

lemma pyRstrip_spec (s : String) :
    ∃ ws : List Char,
      s.data = (pyRstrip s).data ++ ws ∧
      (∀ c ∈ ws, pyIsSpace c = true) ∧
      (∀ c, (pyRstrip s).data.getLast? = some c → pyIsSpace c = false) := by
  refine ⟨(s.data.reverse.takeWhile pyIsSpace).reverse, ?_, ?_, ?_⟩
  · show s.data = (s.data.reverse.dropWhile pyIsSpace).reverse ++
      (s.data.reverse.takeWhile pyIsSpace).reverse
    rw [← List.reverse_append, List.takeWhile_append_dropWhile,
      List.reverse_reverse]
  · intro c hc
    rw [List.mem_reverse] at hc
    exact List.mem_takeWhile_imp hc
  · intro c hc
    show pyIsSpace c = false
    have h2 : (s.data.reverse.dropWhile pyIsSpace).reverse.getLast? = some c := hc
    rw [List.getLast?_reverse] at h2
    have h3 := List.head?_dropWhile_not pyIsSpace s.data.reverse
    rw [h2] at h3
    exact h3

/-- C8: `load_labels` returns exactly one string per line of the file, in
file order, and each returned string is its line with all trailing
whitespace removed (the line splits as the returned string followed by a
whitespace-only tail, and the returned string does not end in
whitespace). -/
theorem load_labels_lines_rstripped (contents : String) :
    (load_labels contents).length = (readlines contents).length ∧
    ∀ i, i < (readlines contents).length →
      (load_labels contents).getD i ""
          = pyRstrip ((readlines contents).getD i "") ∧
      ∃ ws : List Char,
        ((readlines contents).getD i "").data
            = ((load_labels contents).getD i "").data ++ ws ∧
        (∀ c ∈ ws, pyIsSpace c = true) ∧
        (∀ c, ((load_labels contents).getD i "").data.getLast? = some c →
          pyIsSpace c = false) := by
  have hlen : (load_labels contents).length = (readlines contents).length :=
    List.length_map _ _
  refine ⟨hlen, ?_⟩
  intro i hi
  have hi' : i < (load_labels contents).length := by rw [hlen]; exact hi
  have hget : (load_labels contents).getD i ""
      = pyRstrip ((readlines contents).getD i "") := by
    rw [List.getD_eq_getElem _ _ hi', List.getD_eq_getElem _ _ hi]
    simp [load_labels]
  refine ⟨hget, ?_⟩
  rw [hget]
  exact pyRstrip_spec _

/-- C8 witness: the theorem applied to a two-line file whose first line
has trailing whitespace. -/
theorem load_labels_lines_rstripped_witness :
    0 < (readlines "a \nb\n").length ∧
    ((load_labels "a \nb\n").getD 0 ""
        = pyRstrip ((readlines "a \nb\n").getD 0 "") ∧
      ∃ ws : List Char,
        ((readlines "a \nb\n").getD 0 "").data
            = ((load_labels "a \nb\n").getD 0 "").data ++ ws ∧
        (∀ c ∈ ws, pyIsSpace c = true) ∧
        (∀ c, ((load_labels "a \nb\n").getD 0 "").data.getLast? = some c →
          pyIsSpace c = false)) :=
  ⟨by decide, (load_labels_lines_rstripped "a \nb\n").2 0 (by decide)⟩

/-- C10: a CLI override takes effect only when the parsed value is
truthy: the value `0` passed to an int-typed flag (`--input_height`,
`--input_width`, `--input_mean`, `--input_std`) leaves the hardcoded
default in effect (as does omitting the flag), a nonzero value replaces
it, and the bool-typed flags `--vote` / `--top_k_graph` are activated by
every non-empty argument string, including `"False"`. -/
theorem cli_overrides_truthy :
    (∀ d : ℤ, applyIntOverride d (some 0) = d) ∧
    (∀ d : ℤ, applyIntOverride d none = d) ∧
    (∀ d v : ℤ, v ≠ 0 → applyIntOverride d (some v) = v) ∧
    (∀ s : String, s ≠ "" → boolFlagActive (some s) = true) ∧
    boolFlagActive (some "False") = true ∧
    boolFlagActive none = false := by
  refine ⟨fun d => rfl, fun d => rfl, ?_, ?_, by decide, rfl⟩
  · intro d v hv
    simp [applyIntOverride, intFlagTruthy, hv]
  · intro s hs
    unfold boolFlagActive pyBoolOfString
    simp [hs]

/-- C10 witness: the theorem applied at concrete flag values. -/
theorem cli_overrides_truthy_witness :
    ((7 : ℤ) ≠ 0 ∧ applyIntOverride 299 (some 7) = 7) ∧
    (("False" : String) ≠ "" ∧ boolFlagActive (some "False") = true) :=
  ⟨⟨by decide, cli_overrides_truthy.2.2.1 299 7 (by decide)⟩,
    ⟨by decide, cli_overrides_truthy.2.2.2.1 "False" (by decide)⟩⟩

end LabelImage
